import Mathlib

/-!
A shallow embedding of the `iced_file_tree` widget crate (src/dir.rs, src/file.rs,
src/err.rs, src/file_tree.rs, src/folder.rs, src/lib.rs) and proofs about it.

Entry names are modelled as byte lists (`List Nat`), matching the Rust code's use
of `OsString::as_encoded_bytes`.  Geometry values (`f32` in the source) are
modelled as exact rationals; the arithmetic involved consists only of additions,
subtractions and comparisons, which the rational model reflects faithfully.
-/

namespace IcedFileTree

/-- Event status, embedding `iced::event::Status`. -/
inductive Status
  | ignored
  | captured
  deriving DecidableEq, Repr

/-- Embeds `Status::merge`: captured wins over ignored. -/
def Status.merge : Status → Status → Status
  | .ignored, .ignored => .ignored
  | _, _ => .captured

/-- Embeds `u8::make_ascii_lowercase` on one byte. -/
def asciiLowercaseByte (b : Nat) : Nat :=
  if 65 ≤ b ∧ b ≤ 90 then b + 32 else b

/-- Embeds `OsString::make_ascii_lowercase`, applied to the byte list of a name. -/
def asciiLowercase (name : List Nat) : List Nat :=
  name.map asciiLowercaseByte

/-- Embeds `name.as_encoded_bytes().starts_with(b".")` (`.` is byte 46). -/
def startsWithDot : List Nat → Bool
  | [] => false
  | b :: _ => b == 46

/-- Lexicographic byte-slice comparison, embedding `Ord::cmp` on `OsString`
restricted to `Less | Equal`, i.e. `≤`.  A strict prefix compares below any
extension of it, and the first differing byte decides. -/
def bytesLe : List Nat → List Nat → Bool
  | [], _ => true
  | _ :: _, [] => false
  | a :: as, b :: bs => if a < b then true else if b < a then false else bytesLe as bs

/-- An entry's `file_type()` result when it succeeds: regular file, directory,
or something else (device node, socket, ...). -/
inductive FileType
  | file
  | dir
  | other
  deriving DecidableEq, Repr

/-- One raw entry yielded by `std::fs::read_dir`: its `file_name()` bytes and
the result of `file_type()` (`none` models `file_type()` returning `Err`). -/
structure DirEntry where
  nameBytes : List Nat
  ftype : Option FileType
  deriving DecidableEq, Repr

/-- The comparator closure passed to `sort_by` in `init_files` / `init_dirs`:
`|(_, aname), (_, bname)| aname.cmp(bname)` — compare the cached lowercased
names. -/
def entryKeyLe (p q : DirEntry × List Nat) : Prop :=
  bytesLe p.2 q.2 = true

instance : DecidableRel entryKeyLe := fun p q =>
  inferInstanceAs (Decidable (bytesLe p.2 q.2 = true))

instance : IsTotal (DirEntry × List Nat) entryKeyLe where
  total p q := by
    show bytesLe p.2 q.2 = true ∨ bytesLe q.2 p.2 = true
    have H : ∀ a b : List Nat, bytesLe a b = true ∨ bytesLe b a = true := by
      intro a
      induction a with
      | nil => intro b; left; rfl
      | cons x xs ih =>
        intro b
        cases b with
        | nil => right; rfl
        | cons y ys =>
          by_cases hxy : x < y
          · left; simp [bytesLe, hxy]
          · by_cases hyx : y < x
            · right; simp [bytesLe, hyx, Nat.lt_asymm hyx]
            · rcases ih ys with h | h
              · left; simp [bytesLe, hxy, hyx, h]
              · right; simp [bytesLe, hxy, hyx, h]
    exact H p.2 q.2

instance : IsTrans (DirEntry × List Nat) entryKeyLe where
  trans p q r hpq hqr := by
    show bytesLe p.2 r.2 = true
    have H : ∀ a b c : List Nat,
        bytesLe a b = true → bytesLe b c = true → bytesLe a c = true := by
      intro a
      induction a with
      | nil => intro b c _ _; rfl
      | cons x xs ih =>
        intro b c hab hbc
        cases b with
        | nil => simp [bytesLe] at hab
        | cons y ys =>
          cases c with
          | nil => simp [bytesLe] at hbc
          | cons z zs =>
            simp only [bytesLe] at hab hbc ⊢
            by_cases hxy : x < y
            · by_cases hyz : y < z
              · simp [Nat.lt_trans hxy hyz]
              · by_cases hzy : z < y
                · simp [hyz, hzy] at hbc
                · have : y = z := Nat.le_antisymm (Nat.le_of_not_lt hzy) (Nat.le_of_not_lt hyz)
                  subst this
                  simp [hxy]
            · by_cases hyx : y < x
              · simp [hxy, hyx] at hab
              · have hxyeq : x = y := Nat.le_antisymm (Nat.le_of_not_lt hyx) (Nat.le_of_not_lt hxy)
                subst hxyeq
                simp only [if_neg hxy, if_neg hyx] at hab
                by_cases hyz : x < z
                · simp [hyz]
                · by_cases hzy : z < x
                  · simp [hyz, hzy] at hbc
                  · simp only [if_neg hyz, if_neg hzy] at hbc ⊢
                    exact ih _ _ hab hbc
    exact H p.2 q.2 r.2 hpq hqr

/-- The outcome of one `std::fs::read_dir` call: `none` models `Err` (permission
denied, path removed); inside a successful listing, a `none` item models an
entry-level `Err` dropped by `filter_map(Result::ok)`. -/
abbrev ReadDirResult := Option (List (Option DirEntry))

/-- The entry pipeline of `Dir::init_files` (src/dir.rs:121-150), up to the
construction of the `File` nodes: keep `Ok` entries whose `file_type()` is a
regular file, pair each with its ASCII-lowercased name, apply the hidden-name
filter `!show_hidden && !name.starts_with(".")` exactly as written, and sort by
the lowercased name.  Returns the surviving entries in display order. -/
def initFilesEntries (showHidden : Bool) (rd : ReadDirResult) : List DirEntry :=
  match rd with
  | none => []
  | some raw =>
    let ok := raw.filterMap id
    let typed := ok.filter fun e => e.ftype == some FileType.file
    let paired := typed.map fun e => (e, asciiLowercase e.nameBytes)
    let kept := paired.filter fun p => !showHidden && !startsWithDot p.2
    let sorted := List.insertionSort entryKeyLe kept
    sorted.map Prod.fst

/-- The entry pipeline of `Dir::init_dirs` (src/dir.rs:152-181), up to the
construction of the child `Dir` nodes: identical to `initFilesEntries` except
that it keeps entries whose `file_type()` is a directory. -/
def initDirsEntries (showHidden : Bool) (rd : ReadDirResult) : List DirEntry :=
  match rd with
  | none => []
  | some raw =>
    let ok := raw.filterMap id
    let typed := ok.filter fun e => e.ftype == some FileType.dir
    let paired := typed.map fun e => (e, asciiLowercase e.nameBytes)
    let kept := paired.filter fun p => !showHidden && !startsWithDot p.2
    let sorted := List.insertionSort entryKeyLe kept
    sorted.map Prod.fst

/-- Marks whether a child element is a `Dir` or a `File` node. -/
inductive ChildKind
  | dirNode
  | fileNode
  deriving DecidableEq, Repr

/-- One child element produced by `Dir::init_children`; the node's path ends in
the originating entry's name, recorded here together with the node kind. -/
structure ChildNode where
  kind : ChildKind
  nameBytes : List Nat
  deriving DecidableEq, Repr

/-- Comparison of produced child nodes by ASCII-lowercased name. -/
def childLe (a b : ChildNode) : Prop :=
  bytesLe (asciiLowercase a.nameBytes) (asciiLowercase b.nameBytes) = true

/-- Comparison of scan entries by ASCII-lowercased name. -/
def entryLe (a b : DirEntry) : Prop :=
  bytesLe (asciiLowercase a.nameBytes) (asciiLowercase b.nameBytes) = true

/-- The mutable cells reachable from one `Dir` node during its lifetime: the
widget-state `open` flag and the four `OnceCell`s — `Dir.dirs` / `Dir.files` on
the node itself and `State.dirs` / `State.files` in the host's persistent state
(src/dir.rs:26-53).  `none` models an unset `OnceCell`. -/
structure DirState where
  openFlag : Bool
  nodeDirs : Option (List DirEntry)
  nodeFiles : Option (List DirEntry)
  stDirs : Option (List DirEntry)
  stFiles : Option (List DirEntry)
  deriving DecidableEq, Repr

/-- Embeds `State::default()` (src/dir.rs:32-40): closed, all cells unset. -/
def DirState.initial : DirState :=
  { openFlag := false, nodeDirs := none, nodeFiles := none, stDirs := none, stFiles := none }

/-- Sets the `open` flag, leaving every cache cell untouched (toggling in
`Dir::on_event` only flips this flag). -/
def DirState.withOpen (s : DirState) (b : Bool) : DirState :=
  { s with openFlag := b }

/-- Embeds `self.dirs.get_or_init(|| state.dirs.get_or_init(|| self.init_dirs()).clone())`:
returns the directory list, the updated cells, and how many times `read_dir`
ran (1 exactly when both cells were unset, since `init_dirs` begins with
`std::fs::read_dir`, also on the failure path). -/
def getOrInitDirs (showHidden : Bool) (rd : ReadDirResult) (s : DirState) :
    List DirEntry × DirState × Nat :=
  match s.nodeDirs with
  | some d => (d, s, 0)
  | none =>
    match s.stDirs with
    | some d => (d, { s with nodeDirs := some d }, 0)
    | none =>
      let d := initDirsEntries showHidden rd
      (d, { s with nodeDirs := some d, stDirs := some d }, 1)

/-- Embeds `self.files.get_or_init(|| state.files.get_or_init(|| self.init_files()).clone())`. -/
def getOrInitFiles (showHidden : Bool) (rd : ReadDirResult) (s : DirState) :
    List DirEntry × DirState × Nat :=
  match s.nodeFiles with
  | some f => (f, s, 0)
  | none =>
    match s.stFiles with
    | some f => (f, { s with nodeFiles := some f }, 0)
    | none =>
      let f := initFilesEntries showHidden rd
      (f, { s with nodeFiles := some f, stFiles := some f }, 1)

/-- Result of one `Dir::init_children` call: the produced child elements, the
cells afterwards, and the number of `read_dir` invocations it performed. -/
structure InitOut where
  children : List ChildNode
  state : DirState
  readCount : Nat
  deriving DecidableEq, Repr

/-- Embeds `Dir::init_children` (src/dir.rs:83-101): an empty list when the
node is closed; otherwise the memoized (or now materialized) directory children
followed by the memoized (or now materialized) file children.  `rd` is what
`std::fs::read_dir(&self.path)` would yield at this moment. -/
def initChildren (showHidden : Bool) (rd : ReadDirResult) (s : DirState) : InitOut :=
  if !s.openFlag then
    { children := [], state := s, readCount := 0 }
  else
    let dOut := getOrInitDirs showHidden rd s
    let fOut := getOrInitFiles showHidden rd dOut.2.1
    { children :=
        dOut.1.map (fun e => { kind := ChildKind.dirNode, nameBytes := e.nameBytes })
          ++ fOut.1.map (fun e => { kind := ChildKind.fileNode, nameBytes := e.nameBytes }),
      state := fOut.2.1,
      readCount := dOut.2.2 + fOut.2.2 }

/-- Counts the cache groups (dirs, files) that are still unmaterialized; an
upper bound on the `read_dir` calls the node can still perform. -/
def dirPotential (s : DirState) : Nat :=
  (match s.nodeDirs, s.stDirs with
   | none, none => 1
   | _, _ => 0)
  + (match s.nodeFiles, s.stFiles with
     | none, none => 1
     | _, _ => 0)

/-- Runs a sequence of `init_children` calls over one node's lifetime: each
call fixes the `open` flag it observes and the `read_dir` view at that moment,
the cells thread through, and the `read_dir` invocations are totalled. -/
def runCalls (showHidden : Bool) : List (Bool × ReadDirResult) → DirState → DirState × Nat
  | [], s => (s, 0)
  | (o, rd) :: rest, s =>
    let out := initChildren showHidden rd (s.withOpen o)
    let tail := runCalls showHidden rest out.state
    (tail.1, out.readCount + tail.2)

/-- Embeds `crate::LINE_HEIGHT` (src/lib.rs:28), the fixed row height used by
`Dir`. -/
def LINE_HEIGHT : ℚ := 13 / 10

/-- A point, embedding `iced::Point` with exact coordinates. -/
structure Point where
  x : ℚ
  y : ℚ
  deriving DecidableEq, Repr

/-- An axis-aligned rectangle, embedding `iced::Rectangle`. -/
structure Bounds where
  x : ℚ
  y : ℚ
  width : ℚ
  height : ℚ
  deriving DecidableEq, Repr

/-- Embeds `Rectangle::contains` (half-open on the far edges, as in iced). -/
def Bounds.containsPt (b : Bounds) (p : Point) : Prop :=
  b.x ≤ p.x ∧ p.x < b.x + b.width ∧ b.y ≤ p.y ∧ p.y < b.y + b.height

instance (b : Bounds) (p : Point) : Decidable (b.containsPt p) := by
  unfold Bounds.containsPt; infer_instance

/-- Embeds `Cursor::position_in(bounds)`: the cursor position relative to the
rectangle's origin when the cursor is available and inside it. -/
def positionIn (cursorPos : Option Point) (b : Bounds) : Option Point :=
  match cursorPos with
  | none => none
  | some p => if b.containsPt p then some { x := p.x - b.x, y := p.y - b.y } else none

/-- The maximum size of `iced::advanced::layout::Limits` (only `max()` is read
by the widgets modelled here). -/
structure Limits where
  maxWidth : ℚ
  maxHeight : ℚ
  deriving DecidableEq, Repr

/-- A layout node, embedding `iced::advanced::layout::Node`: a size, a position
(the translation accumulated so far, `(0,0)` when freshly built), and
positioned children. -/
structure LayoutNode where
  width : ℚ
  height : ℚ
  x : ℚ
  y : ℚ
  children : List LayoutNode
  deriving Repr

/-- Embeds `Node::translate`: move the node, keeping its size and subtree. -/
def LayoutNode.translate (n : LayoutNode) (dx dy : ℚ) : LayoutNode :=
  { n with x := n.x + dx, y := n.y + dy }

/-- The child loop of `Dir::layout` (src/dir.rs:219-232): each child layout is
translated by `(LINE_HEIGHT, y)` where `y` starts at `LINE_HEIGHT` and grows by
the child's height; returns the positioned children and the final `y`. -/
def stackChildren (y : ℚ) : List LayoutNode → List LayoutNode × ℚ
  | [] => ([], y)
  | c :: cs =>
    let placed := c.translate LINE_HEIGHT y
    let rest := stackChildren (y + placed.height) cs
    (placed :: rest.1, rest.2)

/-- Embeds `Dir::layout` (src/dir.rs:210-235), with the children's own layout
results passed in (each child was laid out against the same `limits`): a closed
node is a bare `limits.max().width × LINE_HEIGHT` box; an open node stacks the
children below its header row and reports the accumulated height. -/
def dirLayout (openFlag : Bool) (limits : Limits) (childLayouts : List LayoutNode) :
    LayoutNode :=
  if !openFlag then
    { width := limits.maxWidth, height := LINE_HEIGHT, x := 0, y := 0, children := [] }
  else
    let stacked := stackChildren LINE_HEIGHT childLayouts
    { width := limits.maxWidth, height := stacked.2, x := 0, y := 0, children := stacked.1 }

/-- Mouse buttons, embedding `iced::mouse::Button` (only the variants the
widgets compare against). -/
inductive MouseButton
  | left
  | right
  | middle
  deriving DecidableEq, Repr

/-- Embeds `iced::mouse::click::Kind`. -/
inductive ClickKind
  | single
  | double
  | triple
  deriving DecidableEq, Repr

/-- Embeds `Kind::next` of the host's click detector. -/
def ClickKind.next : ClickKind → ClickKind
  | .single => .double
  | .double => .triple
  | .triple => .double

/-- Embeds `iced::mouse::Click`: kind, button, position and timestamp (in
milliseconds) of an accepted press. -/
structure ClickRec where
  kind : ClickKind
  button : MouseButton
  pos : Point
  time : ℚ
  deriving DecidableEq, Repr

/-- Embeds `Click::is_consecutive`: the new press is close in space (Euclidean
distance below the double-click radius, stated on squared distances) and
strictly later but within the double-click time window. -/
def ClickRec.isConsecutive (prev : ClickRec) (p : Point) (t : ℚ) : Prop :=
  (p.x - prev.pos.x) ^ 2 + (p.y - prev.pos.y) ^ 2 < 36
    ∧ prev.time < t ∧ t - prev.time ≤ 300

instance (prev : ClickRec) (p : Point) (t : ℚ) : Decidable (prev.isConsecutive p t) := by
  unfold ClickRec.isConsecutive; infer_instance

/-- Embeds `Click::new(position, button, previous)` of the host framework: a
press consecutive to the previous click of the same button escalates its kind,
anything else is a fresh single click. -/
def clickNew (p : Point) (button : MouseButton) (t : ℚ) (previous : Option ClickRec) :
    ClickRec :=
  let kind :=
    match previous with
    | none => ClickKind.single
    | some prev =>
      if prev.isConsecutive p t ∧ prev.button = button then prev.kind.next
      else ClickKind.single
  { kind := kind, button := button, pos := p, time := t }

/-- The events the widgets inspect: a left-button press, some other mouse
button press, or anything else (`event == Event::Mouse(ButtonPressed(Left))`
is the only comparison made). -/
inductive WEvent
  | leftPress
  | otherPress
  | otherEvent
  deriving DecidableEq, Repr

/-- Records which of the two optional callbacks are configured on a `File`
node (the `Rc<RefCell<Option<…>>>` slots hold `Some` closure or `None`). -/
structure FileCallbacks where
  onSingle : Bool
  onDouble : Bool
  deriving DecidableEq, Repr

/-- Messages a `File` can publish to the shell, tagged by which callback
produced them (each is applied to the file's own path). -/
inductive FileMsg
  | singleClick
  | doubleClick
  deriving DecidableEq, Repr

/-- Result of one `File::on_event` call. -/
structure FileEvtOut where
  published : List FileMsg
  lastClick : Option ClickRec
  status : Status
  deriving DecidableEq, Repr

/-- Embeds `File::on_event` (src/file.rs:157-193): on a left press with the
cursor inside the file's bounds, publish the single-click message when
configured; when the double-click callback is configured, build the new click
from `last_click`, publish the double-click message exactly when its kind is
`Double`, and store the new click; capture the press.  Everything else is
ignored and leaves `last_click` alone.  `now` is the press timestamp the host
detector reads. -/
def fileOnEvent (cb : FileCallbacks) (ev : WEvent) (bounds : Bounds)
    (cursorPos : Option Point) (now : ℚ) (lastClick : Option ClickRec) : FileEvtOut :=
  match cursorPos with
  | some pos =>
    if ev = WEvent.leftPress ∧ bounds.containsPt pos then
      let p1 := if cb.onSingle then [FileMsg.singleClick] else []
      if cb.onDouble then
        let newClick := clickNew pos MouseButton.left now lastClick
        let p2 := if newClick.kind = ClickKind.double then [FileMsg.doubleClick] else []
        { published := p1 ++ p2, lastClick := some newClick, status := Status.captured }
      else
        { published := p1, lastClick := lastClick, status := Status.captured }
    else
      { published := [], lastClick := lastClick, status := Status.ignored }
  | none => { published := [], lastClick := lastClick, status := Status.ignored }

/-- Result of one `Dir::on_event` call: the state afterwards, whether
`shell.invalidate_layout()` ran, the returned status, and whether the event
was forwarded to the children. -/
structure DirEvtOut where
  state : DirState
  invalidatedLayout : Bool
  status : Status
  forwardedToChildren : Bool
  deriving DecidableEq, Repr

/-- Embeds `Dir::on_event` (src/dir.rs:237-281): a left press whose position
inside the node's bounds has `y ≤ LINE_HEIGHT` toggles `open`, invalidates
layout and captures the event without consulting the children; otherwise a
closed node ignores the event, and an open node forwards it to every child and
merges the children's statuses over `Status::Ignored`. -/
def dirOnEvent (ev : WEvent) (bounds : Bounds) (cursorPos : Option Point)
    (childStatuses : List Status) (s : DirState) : DirEvtOut :=
  if ev == WEvent.leftPress
      && (positionIn cursorPos bounds).any (fun p => decide (p.y ≤ LINE_HEIGHT)) then
    { state := { s with openFlag := !s.openFlag },
      invalidatedLayout := true, status := Status.captured, forwardedToChildren := false }
  else if !s.openFlag then
    { state := s, invalidatedLayout := false, status := Status.ignored,
      forwardedToChildren := false }
  else
    { state := s, invalidatedLayout := false,
      status := childStatuses.foldl Status.merge Status.ignored,
      forwardedToChildren := true }

/-- Models that `ErrorFile` (src/err.rs) does not override `Widget::on_event`;
the trait's default implementation ignores every event. -/
def errorFileOnEvent (_ev : WEvent) (_bounds : Bounds) (_cursorPos : Option Point) :
    Status :=
  Status.ignored

/-- Records what the two root constructors observe about the given path:
whether `std::fs::read_dir(&path)` succeeds and whether `path.file_name()` is
`Some`. -/
structure PathView where
  readable : Bool
  hasFileName : Bool
  deriving DecidableEq, Repr

/-- The tree-wide configuration a fresh root carries. -/
structure RootCfg where
  showHidden : Bool
  showExtensions : Bool
  deriving DecidableEq, Repr

/-- Embeds `FileTree::new` (src/file_tree.rs:67-81): `None` when `read_dir`
fails, otherwise a root with `show_hidden = false` and
`show_extensions = true`. -/
def fileTreeNew (p : PathView) : Option RootCfg :=
  if !p.readable then none
  else some { showHidden := false, showExtensions := true }

/-- Embeds `Folder::new` (src/folder.rs:96-116): `None` when `read_dir` fails,
then `None` again when `path.file_name()` is `None` (the `?` on line 102),
otherwise a root with `show_hidden = false` and `show_extensions = true`. -/
def folderNew (p : PathView) : Option RootCfg :=
  if !p.readable then none
  else if !p.hasFileName then none
  else some { showHidden := false, showExtensions := true }

/-- Converts an ASCII string to its byte list, for concrete test inputs. -/
def bname (s : String) : List Nat := s.data.map Char.toNat

/-- The directory listing of the spec's sort-order example: entries
`.hidden_b`, `Z.txt`, `a_dir/`, `m.txt` with `a_dir` the only directory. -/
def exampleScan : ReadDirResult :=
  some [some { nameBytes := bname ".hidden_b", ftype := some FileType.file },
        some { nameBytes := bname "Z.txt", ftype := some FileType.file },
        some { nameBytes := bname "a_dir", ftype := some FileType.dir },
        some { nameBytes := bname "m.txt", ftype := some FileType.file }]

/-- A listing holding one entry that is neither a regular file nor a
directory (a device node). -/
def deviceScan : ReadDirResult :=
  some [some { nameBytes := bname "dev0", ftype := some FileType.other }]

/-- A file row used as a concrete input in click theorems. -/
def boundsEx : Bounds := { x := 0, y := 0, width := 100, height := 10 }

/-- A cursor position inside `boundsEx`. -/
def posEx : Point := { x := 1, y := 1 }

/-- Sortedness of the shared scan pipeline: after pairing entries with their
lowercased names, filtering and sorting by `entryKeyLe`, the projected entry
list is pairwise ordered by lowercased name. -/
theorem pipeline_pairwise (pred : DirEntry → Bool) (sh : Bool) (raw : List (Option DirEntry)) :
    ((List.insertionSort entryKeyLe
        ((((raw.filterMap id).filter pred).map fun e => (e, asciiLowercase e.nameBytes)).filter
          fun p => !sh && !startsWithDot p.2)).map Prod.fst).Pairwise entryLe := by
  set kept := ((((raw.filterMap id).filter pred).map
      fun e => (e, asciiLowercase e.nameBytes)).filter
      fun p => !sh && !startsWithDot p.2) with hkept
  have hmem : ∀ p ∈ List.insertionSort entryKeyLe kept,
      p.2 = asciiLowercase p.1.nameBytes := by
    intro p hp
    have h1 : p ∈ kept := (List.perm_insertionSort entryKeyLe kept).mem_iff.mp hp
    have h2 : p ∈ ((raw.filterMap id).filter pred).map
        fun e => (e, asciiLowercase e.nameBytes) := (List.mem_filter.mp h1).1
    rcases List.mem_map.mp h2 with ⟨e, _, rfl⟩
    rfl
  have hs : (List.insertionSort entryKeyLe kept).Pairwise entryKeyLe :=
    List.sorted_insertionSort entryKeyLe kept
  have hs2 : (List.insertionSort entryKeyLe kept).Pairwise
      fun p q => entryLe p.1 q.1 :=
    hs.imp_of_mem fun ha hb hr => by
      unfold entryKeyLe at hr
      unfold entryLe
      rw [← hmem _ ha, ← hmem _ hb]
      exact hr
  exact List.pairwise_map.mpr hs2

/-- States that `init_files` output is sorted by lowercased name. -/
theorem initFilesEntries_pairwise (sh : Bool) (rd : ReadDirResult) :
    (initFilesEntries sh rd).Pairwise entryLe := by
  cases rd with
  | none => simp [initFilesEntries]
  | some raw => exact pipeline_pairwise (fun e => e.ftype == some FileType.file) sh raw

/-- States that `init_dirs` output is sorted by lowercased name. -/
theorem initDirsEntries_pairwise (sh : Bool) (rd : ReadDirResult) :
    (initDirsEntries sh rd).Pairwise entryLe := by
  cases rd with
  | none => simp [initDirsEntries]
  | some raw => exact pipeline_pairwise (fun e => e.ftype == some FileType.dir) sh raw

/-- Provenance through the shared scan pipeline: every produced entry is an
`Ok` member of the raw listing that passed the type filter. -/
theorem pipeline_mem (pred : DirEntry → Bool) (sh : Bool) (raw : List (Option DirEntry))
    (e : DirEntry)
    (he : e ∈ (List.insertionSort entryKeyLe
        ((((raw.filterMap id).filter pred).map fun x => (x, asciiLowercase x.nameBytes)).filter
          fun p => !sh && !startsWithDot p.2)).map Prod.fst) :
    some e ∈ raw ∧ pred e = true := by
  rcases List.mem_map.mp he with ⟨p, hp, rfl⟩
  have h1 : p ∈ ((((raw.filterMap id).filter pred).map
      fun x => (x, asciiLowercase x.nameBytes)).filter
      fun p => !sh && !startsWithDot p.2) :=
    (List.perm_insertionSort entryKeyLe _).mem_iff.mp hp
  have h2 := (List.mem_filter.mp h1).1
  rcases List.mem_map.mp h2 with ⟨x, hx, rfl⟩
  have h3 := List.mem_filter.mp hx
  rcases List.mem_filterMap.mp h3.1 with ⟨a, ha, hae⟩
  cases hae
  exact ⟨ha, h3.2⟩

/-- Provenance for `init_files`: only regular-file entries of the listing
survive. -/
theorem initFilesEntries_mem (sh : Bool) (rd : ReadDirResult) (e : DirEntry)
    (he : e ∈ initFilesEntries sh rd) :
    ∃ raw, rd = some raw ∧ some e ∈ raw ∧ e.ftype = some FileType.file := by
  cases rd with
  | none => simp [initFilesEntries] at he
  | some raw =>
    have h := pipeline_mem (fun x => x.ftype == some FileType.file) sh raw e he
    exact ⟨raw, rfl, h.1, by simpa using h.2⟩

/-- Provenance for `init_dirs`: only directory entries of the listing
survive. -/
theorem initDirsEntries_mem (sh : Bool) (rd : ReadDirResult) (e : DirEntry)
    (he : e ∈ initDirsEntries sh rd) :
    ∃ raw, rd = some raw ∧ some e ∈ raw ∧ e.ftype = some FileType.dir := by
  cases rd with
  | none => simp [initDirsEntries] at he
  | some raw =>
    have h := pipeline_mem (fun x => x.ftype == some FileType.dir) sh raw e he
    exact ⟨raw, rfl, h.1, by simpa using h.2⟩

/-- Bounds the cache potential of any state by two. -/
theorem dirPotential_le_two (s : DirState) : dirPotential s ≤ 2 := by
  rcases s with ⟨o, nd, nf, sd, sf⟩
  cases nd <;> cases nf <;> cases sd <;> cases sf <;> simp [dirPotential]

/-- Toggling the `open` flag leaves the cache potential unchanged. -/
theorem dirPotential_withOpen (s : DirState) (b : Bool) :
    dirPotential (s.withOpen b) = dirPotential s := rfl

/-- One `init_children` call performs at most as many `read_dir` invocations
as it consumes cache potential. -/
theorem initChildren_reads (sh : Bool) (rd : ReadDirResult) (s : DirState) :
    (initChildren sh rd s).readCount + dirPotential (initChildren sh rd s).state
      ≤ dirPotential s := by
  rcases s with ⟨o, nd, nf, sd, sf⟩
  cases o <;> cases nd <;> cases nf <;> cases sd <;> cases sf <;>
    simp [initChildren, getOrInitDirs, getOrInitFiles, dirPotential]

/-- Any call sequence performs at most `dirPotential` many `read_dir`
invocations in total. -/
theorem runCalls_reads (sh : Bool) (calls : List (Bool × ReadDirResult)) :
    ∀ s : DirState, (runCalls sh calls s).2 ≤ dirPotential s := by
  induction calls with
  | nil => intro s; simp [runCalls]
  | cons c rest ih =>
    intro s
    rcases c with ⟨o, rd⟩
    have h1 := initChildren_reads sh rd (s.withOpen o)
    have h2 := ih (initChildren sh rd (s.withOpen o)).state
    have h3 : dirPotential (s.withOpen o) = dirPotential s := dirPotential_withOpen s o
    simp only [runCalls]
    omega

/-- The final `y` of the child-stacking loop is its start plus the total child
height. -/
theorem stackChildren_snd (cs : List LayoutNode) :
    ∀ y : ℚ, (stackChildren y cs).2 = y + (cs.map LayoutNode.height).sum := by
  induction cs with
  | nil => intro y; simp [stackChildren]
  | cons c rest ih =>
    intro y
    simp only [stackChildren, LayoutNode.translate, List.map_cons, List.sum_cons]
    rw [ih (y + c.height)]
    ring

/-- The child-stacking loop keeps the number of children. -/
theorem stackChildren_length (cs : List LayoutNode) :
    ∀ y : ℚ, (stackChildren y cs).1.length = cs.length := by
  induction cs with
  | nil => intro y; simp [stackChildren]
  | cons c rest ih => intro y; simp [stackChildren, ih]

/-- Closed form of the child-stacking loop: the i-th positioned child is the
i-th input translated by `LINE_HEIGHT` horizontally and by the running height
sum vertically. -/
theorem stackChildren_get (cs : List LayoutNode) :
    ∀ (y : ℚ) (i : Nat),
      (stackChildren y cs).1.get? i
        = (cs.get? i).map fun c =>
            c.translate LINE_HEIGHT (y + ((cs.take i).map LayoutNode.height).sum) := by
  induction cs with
  | nil => intro y i; simp [stackChildren]
  | cons c rest ih =>
    intro y i
    cases i with
    | zero => simp [stackChildren]
    | succ n =>
      simp only [stackChildren, List.get?_cons_succ, List.take_succ_cons, List.map_cons,
        List.sum_cons]
      rw [ih (y + (c.translate LINE_HEIGHT y).height) n]
      cases hg : rest.get? n with
      | none => simp
      | some d =>
        simp only [Option.map_some']
        have : (c.translate LINE_HEIGHT y).height = c.height := rfl
        rw [this]
        congr 1
        unfold LayoutNode.translate
        congr 1
        ring
/-- C1: the spec says hidden entries (name starting with `.`) are excluded
unless `show_hidden` is true and that non-hidden entries are always shown; on
the spec's own example listing the code agrees for `show_hidden = false`
(displaying `a_dir`, `m.txt`, `Z.txt` in that order) but displays an empty
list for `show_hidden = true`, because the filter
`!show_hidden && !name.starts_with(".")` drops every entry once the flag is
set — a slip contradicting the builder's documentation. -/
theorem show_hidden_filter_evaluation :
    (initChildren false exampleScan (DirState.initial.withOpen true)).children
      = [{ kind := ChildKind.dirNode, nameBytes := bname "a_dir" },
         { kind := ChildKind.fileNode, nameBytes := bname "m.txt" },
         { kind := ChildKind.fileNode, nameBytes := bname "Z.txt" }]
    ∧ (initChildren true exampleScan (DirState.initial.withOpen true)).children = [] :=
  ⟨by decide, by decide⟩

/-- C2 counterexample: the first children materialization with the node open
already invokes `read_dir` twice (once in `init_dirs`, once in `init_files`),
refuting "at most once per node lifetime". -/
theorem first_materialization_two_reads :
    (initChildren false exampleScan (DirState.initial.withOpen true)).readCount = 2
    ∧ ¬((initChildren false exampleScan (DirState.initial.withOpen true)).readCount ≤ 1) :=
  ⟨rfl, by decide⟩

/-- C2 (amended): over a node's lifetime `read_dir` runs at most twice — the
first open materialization performs exactly two invocations, one for the
subdirectory list and one for the file list — and any later open call performs
zero invocations and returns the memoized child sequence unchanged, whatever
the filesystem would now report. -/
theorem dir_read_dir_twice_then_memoized :
    ∀ (sh : Bool) (rd rd' : ReadDirResult) (s : DirState)
      (calls : List (Bool × ReadDirResult)),
      (runCalls sh calls DirState.initial).2 ≤ 2
      ∧ (initChildren sh rd (DirState.initial.withOpen true)).readCount = 2
      ∧ (initChildren sh rd'
            ((initChildren sh rd (s.withOpen true)).state.withOpen true)).readCount = 0
      ∧ (initChildren sh rd'
            ((initChildren sh rd (s.withOpen true)).state.withOpen true)).children
          = (initChildren sh rd (s.withOpen true)).children := by
  intro sh rd rd' s calls
  refine ⟨runCalls_reads sh calls DirState.initial, rfl, ?_, ?_⟩
  · rcases s with ⟨o, nd, nf, sd, sf⟩
    cases nd <;> cases nf <;> cases sd <;> cases sf <;> rfl
  · rcases s with ⟨o, nd, nf, sd, sf⟩
    cases nd <;> cases nf <;> cases sd <;> cases sf <;> rfl

/-- C3: for an expanded directory the displayed child list is the directory
nodes followed by the file nodes, every element of the first block is a
directory node, every element of the second a file node, and each block is
pairwise ordered ascending by ASCII-lowercased name. -/
theorem children_dirs_before_files_sorted :
    ∀ (sh : Bool) (rd : ReadDirResult),
      (initChildren sh rd (DirState.initial.withOpen true)).children
        = (initDirsEntries sh rd).map
            (fun e => { kind := ChildKind.dirNode, nameBytes := e.nameBytes })
          ++ (initFilesEntries sh rd).map
            (fun e => { kind := ChildKind.fileNode, nameBytes := e.nameBytes })
      ∧ (((initDirsEntries sh rd).map
            (fun e => ({ kind := ChildKind.dirNode, nameBytes := e.nameBytes } : ChildNode))).all
          fun c => c.kind == ChildKind.dirNode) = true
      ∧ (((initFilesEntries sh rd).map
            (fun e => ({ kind := ChildKind.fileNode, nameBytes := e.nameBytes } : ChildNode))).all
          fun c => c.kind == ChildKind.fileNode) = true
      ∧ ((initDirsEntries sh rd).map
            (fun e => ({ kind := ChildKind.dirNode, nameBytes := e.nameBytes } : ChildNode))).Pairwise
          childLe
      ∧ ((initFilesEntries sh rd).map
            (fun e => ({ kind := ChildKind.fileNode, nameBytes := e.nameBytes } : ChildNode))).Pairwise
          childLe := by
  intro sh rd
  refine ⟨rfl, ?_, ?_, ?_, ?_⟩
  · simp [List.all_eq_true]
  · simp [List.all_eq_true]
  · exact List.pairwise_map.mpr ((initDirsEntries_pairwise sh rd).imp fun h => h)
  · exact List.pairwise_map.mpr ((initFilesEntries_pairwise sh rd).imp fun h => h)

/-- C4: a closed directory's layout is exactly one `LINE_HEIGHT` row at the
parent's maximal width with no children, independent of the contents; an open
directory's layout keeps that width, has height `LINE_HEIGHT` plus the sum of
the children's heights, and places the i-th child translated by one row height
horizontally and stacked with zero gap below the header row. -/
theorem dir_layout_row_and_stacking :
    ∀ (limits : Limits) (cls : List LayoutNode),
      (dirLayout false limits cls).height = LINE_HEIGHT
      ∧ (dirLayout false limits cls).width = limits.maxWidth
      ∧ (dirLayout false limits cls).children = []
      ∧ (dirLayout true limits cls).width = limits.maxWidth
      ∧ (dirLayout true limits cls).height = LINE_HEIGHT + (cls.map LayoutNode.height).sum
      ∧ (dirLayout true limits cls).children.length = cls.length
      ∧ ∀ i : Nat,
          (dirLayout true limits cls).children.get? i
            = (cls.get? i).map fun c =>
                c.translate LINE_HEIGHT
                  (LINE_HEIGHT + ((cls.take i).map LayoutNode.height).sum) := by
  intro limits cls
  refine ⟨rfl, rfl, rfl, rfl, ?_, ?_, ?_⟩
  · exact stackChildren_snd cls LINE_HEIGHT
  · exact stackChildren_length cls LINE_HEIGHT
  · intro i; exact stackChildren_get cls LINE_HEIGHT i

/-- C5 counterexample: with a single-click callback configured but no
double-click callback, a left press inside the file's row publishes the
single-click message and is captured, yet `last_click` stays `none` instead of
being updated to the new press the claim demands. -/
theorem last_click_not_updated_without_double_callback :
    (fileOnEvent { onSingle := true, onDouble := false } WEvent.leftPress boundsEx
        (some posEx) 0 none).lastClick = none
    ∧ (fileOnEvent { onSingle := true, onDouble := false } WEvent.leftPress boundsEx
        (some posEx) 0 none).published = [FileMsg.singleClick]
    ∧ (fileOnEvent { onSingle := true, onDouble := false } WEvent.leftPress boundsEx
        (some posEx) 0 none).status = Status.captured
    ∧ (fileOnEvent { onSingle := true, onDouble := false } WEvent.leftPress boundsEx
        (some posEx) 0 none).lastClick
        ≠ some (clickNew posEx MouseButton.left 0 none) := by
  have h : boundsEx.containsPt posEx := by
    refine ⟨by norm_num [boundsEx, posEx], by norm_num [boundsEx, posEx],
      by norm_num [boundsEx, posEx], by norm_num [boundsEx, posEx]⟩
  refine ⟨?_, ?_, ?_, ?_⟩ <;> simp [fileOnEvent, h]

/-- C5 (amended): on every left press inside a file's row the press is
captured, the single-click message is published exactly when that callback is
configured, the double-click message is published exactly when that callback
is configured and the host detector classifies the press as the second half of
a double click relative to `last_click`, and `last_click` is updated to the
new press exactly when the double-click callback is configured — otherwise it
is left unchanged. -/
theorem file_click_firing_semantics :
    ∀ (cb : FileCallbacks) (b : Bounds) (pos : Point) (now : ℚ) (last : Option ClickRec),
      b.containsPt pos →
      ((fileOnEvent cb WEvent.leftPress b (some pos) now last).status = Status.captured
      ∧ (FileMsg.singleClick ∈ (fileOnEvent cb WEvent.leftPress b (some pos) now last).published
          ↔ cb.onSingle = true)
      ∧ (FileMsg.doubleClick ∈ (fileOnEvent cb WEvent.leftPress b (some pos) now last).published
          ↔ cb.onDouble = true
              ∧ (clickNew pos MouseButton.left now last).kind = ClickKind.double)
      ∧ (cb.onDouble = true →
          (fileOnEvent cb WEvent.leftPress b (some pos) now last).lastClick
            = some (clickNew pos MouseButton.left now last))
      ∧ (cb.onDouble = false →
          (fileOnEvent cb WEvent.leftPress b (some pos) now last).lastClick = last)) := by
  intro cb b pos now last h
  rcases cb with ⟨cs, cd⟩
  cases cs <;> cases cd <;>
    by_cases hk : (clickNew pos MouseButton.left now last).kind = ClickKind.double <;>
      simp [fileOnEvent, h, hk]

/-- C5 witness: the amended click semantics applied at a concrete press. -/
theorem file_click_firing_semantics_witness :
    (fileOnEvent { onSingle := true, onDouble := true } WEvent.leftPress boundsEx
        (some posEx) 0 none).status = Status.captured :=
  (file_click_firing_semantics { onSingle := true, onDouble := true } boundsEx posEx 0 none
      ⟨by norm_num [boundsEx, posEx], by norm_num [boundsEx, posEx],
        by norm_num [boundsEx, posEx], by norm_num [boundsEx, posEx]⟩).1
/-- C6 counterexample: a scan over a listing holding one device-node entry
(neither regular file nor directory) yields an empty child list — the entry is
silently dropped, so the child list does not hold exactly one error node. -/
theorem device_entry_produces_no_child :
    (initChildren false deviceScan (DirState.initial.withOpen true)).children = []
    ∧ (initChildren false deviceScan (DirState.initial.withOpen true)).children.length ≠ 1 :=
  ⟨by decide, by decide⟩

/-- C6 (amended): the directory scan materializes only entries whose
`file_type()` is a regular file or a directory — an entry that is neither is
dropped from both lists and produces no node at all — and the `ErrorFile`
widget (which the scan never constructs) ignores every event, so it never
captures a click. -/
theorem unclassifiable_entries_dropped :
    ∀ (sh : Bool) (rd : ReadDirResult) (e : DirEntry),
      (e ∈ initFilesEntries sh rd →
        e.ftype = some FileType.file ∧ ∃ raw, rd = some raw ∧ some e ∈ raw)
      ∧ (e ∈ initDirsEntries sh rd →
        e.ftype = some FileType.dir ∧ ∃ raw, rd = some raw ∧ some e ∈ raw)
      ∧ ∀ (ev : WEvent) (b : Bounds) (cp : Option Point),
          errorFileOnEvent ev b cp = Status.ignored := by
  intro sh rd e
  refine ⟨fun he => ?_, fun he => ?_, fun _ _ _ => rfl⟩
  · rcases initFilesEntries_mem sh rd e he with ⟨raw, h1, h2, h3⟩
    exact ⟨h3, raw, h1, h2⟩
  · rcases initDirsEntries_mem sh rd e he with ⟨raw, h1, h2, h3⟩
    exact ⟨h3, raw, h1, h2⟩

/-- C6 witness: the provenance property applied to a concrete produced file
entry. -/
theorem unclassifiable_entries_dropped_witness :
    ({ nameBytes := bname "m.txt", ftype := some FileType.file } : DirEntry).ftype
        = some FileType.file
      ∧ ∃ raw, exampleScan = some raw
          ∧ some ({ nameBytes := bname "m.txt", ftype := some FileType.file } : DirEntry) ∈ raw :=
  (unclassifiable_entries_dropped false exampleScan
      { nameBytes := bname "m.txt", ftype := some FileType.file }).1 (by decide)

/-- C7: a left press whose cursor position inside a directory node's bounds
has local `y ≤ LINE_HEIGHT` flips the node's `open` flag, requests a layout
invalidation, and is captured without being forwarded to the children; a left
press inside the bounds but below the header row of a closed node is ignored
and not forwarded. -/
theorem dir_header_press_toggles :
    ∀ (b : Bounds) (cp : Option Point) (cs : List Status) (s : DirState) (p : Point),
      positionIn cp b = some p →
      ((p.y ≤ LINE_HEIGHT →
          dirOnEvent WEvent.leftPress b cp cs s
            = { state := s.withOpen (!s.openFlag), invalidatedLayout := true,
                status := Status.captured, forwardedToChildren := false })
        ∧ (LINE_HEIGHT < p.y → s.openFlag = false →
            dirOnEvent WEvent.leftPress b cp cs s
              = { state := s, invalidatedLayout := false, status := Status.ignored,
                  forwardedToChildren := false })) := by
  intro b cp cs s p hpos
  constructor
  · intro hy
    simp [dirOnEvent, hpos, hy, DirState.withOpen]
  · intro hy ho
    simp [dirOnEvent, hpos, not_le.mpr hy, ho]

/-- C7 witness: the header-press toggle applied at a concrete press on a
closed root node. -/
theorem dir_header_press_toggles_witness :
    dirOnEvent WEvent.leftPress { x := 0, y := 0, width := 100, height := 50 }
        (some { x := 1, y := 1 }) [] DirState.initial
      = { state := DirState.initial.withOpen true, invalidatedLayout := true,
          status := Status.captured, forwardedToChildren := false } := by
  have hcont : Bounds.containsPt { x := 0, y := 0, width := 100, height := 50 }
      { x := 1, y := 1 } :=
    ⟨by norm_num, by norm_num, by norm_num, by norm_num⟩
  have hpos : positionIn (some { x := 1, y := 1 })
      { x := 0, y := 0, width := 100, height := 50 } = some { x := 1, y := 1 } := by
    simp only [positionIn, if_pos hcont, Option.some.injEq, Point.mk.injEq]
    norm_num
  exact (dir_header_press_toggles { x := 0, y := 0, width := 100, height := 50 }
      (some { x := 1, y := 1 }) [] DirState.initial { x := 1, y := 1 } hpos).1
    (by norm_num [LINE_HEIGHT])

/-- C8: when `read_dir` fails on the first open materialization, the child
list is empty, and every later call — under any `open` flag and whatever the
filesystem would now report — still returns an empty child list and leaves the
cells unchanged, so the empty result is final. -/
theorem dir_unreadable_children_empty_final :
    ∀ (sh : Bool) (rd' : ReadDirResult) (o : Bool),
      (initChildren sh none (DirState.initial.withOpen true)).children = []
      ∧ (initChildren sh rd'
            ((initChildren sh none (DirState.initial.withOpen true)).state.withOpen o)).children
          = []
      ∧ (initChildren sh rd'
            ((initChildren sh none (DirState.initial.withOpen true)).state.withOpen o)).state
          = (initChildren sh none (DirState.initial.withOpen true)).state.withOpen o := by
  intro sh rd' o
  cases o <;> exact ⟨rfl, rfl, rfl⟩

/-- C9 counterexample: `Folder::new` returns `None` on a path that is readable
as a directory but has no final name component (for example `/`), refuting
"absent if and only if the path cannot be enumerated". -/
theorem folder_new_refuses_readable_root :
    folderNew { readable := true, hasFileName := false } = none
    ∧ ({ readable := true, hasFileName := false } : PathView).readable = true :=
  ⟨rfl, rfl⟩

/-- C9 (amended): `FileTree::new` is absent exactly when the path cannot be
enumerated, while `Folder::new` is absent exactly when the path cannot be
enumerated or has no final name component; each success carries the defaults
`show_hidden = false` and `show_extensions = true`. -/
theorem tree_construction_semantics :
    ∀ p : PathView,
      (fileTreeNew p = none ↔ p.readable = false)
      ∧ (folderNew p = none ↔ p.readable = false ∨ p.hasFileName = false)
      ∧ (p.readable = true →
          fileTreeNew p = some { showHidden := false, showExtensions := true })
      ∧ (p.readable = true → p.hasFileName = true →
          folderNew p = some { showHidden := false, showExtensions := true }) := by
  intro p
  rcases p with ⟨r, f⟩
  cases r <;> cases f <;> simp [fileTreeNew, folderNew]

/-- C9 witness: the construction semantics applied to a readable path. -/
theorem tree_construction_semantics_witness :
    fileTreeNew { readable := true, hasFileName := true }
      = some { showHidden := false, showExtensions := true } :=
  (tree_construction_semantics { readable := true, hasFileName := true }).2.2.1 rfl

/-- C10: a left press inside a file node's bounds is captured even when no
callback is configured — publishing nothing and leaving `last_click`
unchanged — while any other event, a press outside the bounds, or an absent
cursor is ignored, publishes nothing and leaves `last_click` unchanged. -/
theorem file_press_always_captured :
    ∀ (cb : FileCallbacks) (ev : WEvent) (b : Bounds) (pos : Point) (now : ℚ)
      (last : Option ClickRec),
      (ev = WEvent.leftPress → b.containsPt pos →
        ((fileOnEvent cb ev b (some pos) now last).status = Status.captured
          ∧ (cb.onSingle = false → cb.onDouble = false →
              fileOnEvent cb ev b (some pos) now last
                = { published := [], lastClick := last, status := Status.captured })))
      ∧ (¬(ev = WEvent.leftPress ∧ b.containsPt pos) →
          fileOnEvent cb ev b (some pos) now last
            = { published := [], lastClick := last, status := Status.ignored })
      ∧ fileOnEvent cb ev b none now last
          = { published := [], lastClick := last, status := Status.ignored } := by
  intro cb ev b pos now last
  refine ⟨fun hev hin => ?_, fun hn => ?_, rfl⟩
  · subst hev
    rcases cb with ⟨cs, cd⟩
    refine ⟨?_, fun h1 h2 => ?_⟩
    · cases cs <;> cases cd <;> simp [fileOnEvent, hin]
    · subst h1; subst h2
      simp [fileOnEvent, hin]
  · simp [fileOnEvent, hn]

/-- C10 witness: a press with no callbacks configured, applied concretely. -/
theorem file_press_always_captured_witness :
    (fileOnEvent { onSingle := false, onDouble := false } WEvent.leftPress boundsEx
        (some posEx) 0 none).status = Status.captured :=
  ((file_press_always_captured { onSingle := false, onDouble := false } WEvent.leftPress
      boundsEx posEx 0 none).1 rfl
    ⟨by norm_num [boundsEx, posEx], by norm_num [boundsEx, posEx],
      by norm_num [boundsEx, posEx], by norm_num [boundsEx, posEx]⟩).1

end IcedFileTree
